import Mathlib

/-!
Verification of the pipeline-and-orchestration engine of the
Web-Crawling-and-Document-Processing-System repository.

Conventions of the shallow embedding:
* A *sentence* is modelled as its list of words (`List String`); the Python
  code manipulates whitespace-joined strings, and `len(s.split())` becomes
  `List.length`, `" ".join(...)` on sentence lists becomes `List.flatten`.
* Python `float` configuration values are modelled as `ℚ`.
* Fallible constructors / methods return `Except`.
-/

namespace WebCrawl

/-! ## Chunker — `app/crawling/stages/chunker.py`

`ChunkerStage._group_sentences` groups a list of sentences into parent
chunks, and `ChunkerStage._get_overlap` computes the overlap seed carried
from one chunk into the next.  A chunk is modelled as the list of its
elements (each element is a word list: either an original sentence or the
overlap seed), so the chunk's text is its `flatten` and its `word_count`
is `flatten.length`. -/

/-- Total word count of a list of sentences (each sentence a word list). -/
def wordsSum (l : List (List String)) : Nat :=
  (l.map List.length).sum

/-- Embeds the loop of `ChunkerStage._get_overlap` (chunker.py 179-185):
walk over the reversed element list, keeping an element only while the
accumulated word total stays within `target`; stop at the first element
that would exceed the budget. `wc` is the running `word_count`. -/
def overlapTake (target : Nat) : List (List String) → Nat → List (List String)
  | [], _ => []
  | s :: rest, wc =>
    if wc + s.length ≤ target then s :: overlapTake target rest (wc + s.length)
    else []

/-- Embeds `ChunkerStage._get_overlap` (chunker.py 171-187): the collected
trailing elements, restored to document order and joined into one word
list. -/
def getOverlapWords (chunk : List (List String)) (target : Nat) : List String :=
  ((overlapTake target chunk.reverse 0).reverse).flatten

/-- The mutable state of the `_group_sentences` loop (chunker.py 145-147):
`chunks`, `current_chunk` and `current_words`. -/
structure GroupState where
  chunks : List (List (List String))
  current : List (List String)
  currentWords : Nat
deriving DecidableEq

/-- Embeds the `for sentence in sentences` loop of
`ChunkerStage._group_sentences` (chunker.py 149-163). -/
def groupAux (mn mx ov : Nat) : List (List String) → GroupState → GroupState
  | [], st => st
  | s :: rest, st =>
    let sw := s.length
    if st.currentWords + sw > mx ∧ mn ≤ st.currentWords then
      let ovW := getOverlapWords st.current ov
      let cur0 : List (List String) := if ovW.isEmpty then [] else [ovW]
      groupAux mn mx ov rest
        ⟨st.chunks ++ [st.current], cur0 ++ [s], ovW.length + sw⟩
    else
      groupAux mn mx ov rest ⟨st.chunks, st.current ++ [s], st.currentWords + sw⟩

/-- Embeds `ChunkerStage._group_sentences` (chunker.py 137-169): run the
grouping loop from the empty state, then keep the trailing partial chunk
only if it is nonempty and has at least `min_words // 2` words. -/
def groupSentences (sentences : List (List String)) (mn mx ov : Nat) :
    List (List (List String)) :=
  let st := groupAux mn mx ov sentences ⟨[], [], 0⟩
  if st.current ≠ [] ∧ mn / 2 ≤ st.currentWords then st.chunks ++ [st.current]
  else st.chunks

/-! ### Chunker invariants -/

lemma flatten_seed (ovW s : List String) :
    ((if ovW.isEmpty then ([] : List (List String)) else [ovW]) ++ [s]).flatten
      = ovW ++ s := by
  by_cases h : ovW.isEmpty
  · simp_all [List.isEmpty_iff]
  · simp [h]

lemma length_flatten_words (l : List (List String)) :
    l.flatten.length = wordsSum l := by
  simp [wordsSum, List.length_flatten]

/-- `current_words` always equals the word count of the current chunk, and
every saved chunk has at least `min_words` words. -/
lemma groupAux_inv (mn mx ov : Nat) :
    ∀ (l : List (List String)) (st : GroupState),
      st.currentWords = st.current.flatten.length →
      (∀ c ∈ st.chunks, mn ≤ c.flatten.length) →
      (groupAux mn mx ov l st).currentWords
          = (groupAux mn mx ov l st).current.flatten.length ∧
        ∀ c ∈ (groupAux mn mx ov l st).chunks, mn ≤ c.flatten.length := by
  intro l
  induction l with
  | nil => intro st h1 h2; exact ⟨h1, h2⟩
  | cons s rest ih =>
    intro st h1 h2
    rw [groupAux]
    by_cases hb : st.currentWords + s.length > mx ∧ mn ≤ st.currentWords
    · rw [if_pos hb]
      refine ih _ ?_ ?_
      · by_cases he : getOverlapWords st.current ov = [] <;>
          simp [he, List.isEmpty_iff]
      · intro c hc
        rcases List.mem_append.mp hc with hc | hc
        · exact h2 c hc
        · rcases List.mem_singleton.mp hc with rfl
          rw [← h1]; exact hb.2
    · rw [if_neg hb]
      refine ih _ ?_ h2
      simp [h1]

/-- If the grouping loop ends with no saved chunk, then no boundary was
ever taken: the final current chunk is the whole input and the final word
count is the total word count. -/
lemma groupAux_chunks_nil (mn mx ov : Nat) :
    ∀ (l : List (List String)) (st : GroupState),
      (groupAux mn mx ov l st).chunks = [] →
      st.chunks = [] ∧
        (groupAux mn mx ov l st).current = st.current ++ l ∧
        (groupAux mn mx ov l st).currentWords = st.currentWords + wordsSum l := by
  intro l
  induction l with
  | nil => intro st h; simpa [groupAux, wordsSum] using h
  | cons s rest ih =>
    intro st h
    rw [groupAux] at h ⊢
    by_cases hb : st.currentWords + s.length > mx ∧ mn ≤ st.currentWords
    · rw [if_pos hb] at h
      have := (ih _ h).1
      simp at this
    · rw [if_neg hb] at h ⊢
      obtain ⟨h1, h2, h3⟩ := ih _ h
      refine ⟨h1, ?_, ?_⟩
      · simp [h2]
      · rw [h3]; simp [wordsSum]; ring

/-- If the words seen so far plus the remaining words stay below
`min_words`, the boundary condition never fires. -/
lemma groupAux_below_min (mn mx ov : Nat) :
    ∀ (l : List (List String)) (st : GroupState),
      st.currentWords + wordsSum l < mn →
      (groupAux mn mx ov l st).chunks = st.chunks ∧
        (groupAux mn mx ov l st).current = st.current ++ l ∧
        (groupAux mn mx ov l st).currentWords = st.currentWords + wordsSum l := by
  intro l
  induction l with
  | nil => intro st _; simp [groupAux, wordsSum]
  | cons s rest ih =>
    intro st h
    have hsum : wordsSum (s :: rest) = s.length + wordsSum rest := by
      simp [wordsSum]
    have hlt : st.currentWords < mn := by omega
    rw [groupAux]
    rw [if_neg (by intro hc; exact absurd hc.2 (by omega))]
    have hlt2 : st.currentWords + s.length + wordsSum rest < mn := by omega
    obtain ⟨h1, h2, h3⟩ :=
      ih ⟨st.chunks, st.current ++ [s], st.currentWords + s.length⟩ hlt2
    have h3' :
        (groupAux mn mx ov rest
            ⟨st.chunks, st.current ++ [s], st.currentWords + s.length⟩).currentWords
          = st.currentWords + s.length + wordsSum rest := h3
    refine ⟨h1, ?_, ?_⟩
    · rw [h2]; simp
    · rw [h3']; omega

/-- The word total collected by the overlap walk never exceeds the budget
left (`target - wc`). -/
lemma overlapTake_words_le (target : Nat) :
    ∀ (l : List (List String)) (wc : Nat), wc ≤ target →
      wc + wordsSum (overlapTake target l wc) ≤ target := by
  intro l
  induction l with
  | nil => intro wc h; simpa [overlapTake, wordsSum]
  | cons s rest ih =>
    intro wc h
    rw [overlapTake]
    by_cases hc : wc + s.length ≤ target
    · rw [if_pos hc]
      have h1 := ih (wc + s.length) hc
      have h2 : wordsSum (s :: overlapTake target rest (wc + s.length))
          = s.length + wordsSum (overlapTake target rest (wc + s.length)) := by
        simp [wordsSum]
      omega
    · rw [if_neg hc]; simpa [wordsSum]

/-- The overlap seed computed by `_get_overlap` has at most `target`
words. -/
lemma getOverlapWords_length_le (chunk : List (List String)) (target : Nat) :
    (getOverlapWords chunk target).length ≤ target := by
  have h := overlapTake_words_le target chunk.reverse 0 (Nat.zero_le _)
  rw [getOverlapWords, length_flatten_words]
  have hrev : wordsSum ((overlapTake target chunk.reverse 0).reverse)
      = wordsSum (overlapTake target chunk.reverse 0) := by
    simp [wordsSum, List.sum_reverse]
  omega

/-- Relation between consecutive parent chunks: the second one begins with
the overlap suffix computed from the first. -/
def overlapSeeded (ov : Nat) (a b : List (List String)) : Prop :=
  getOverlapWords a ov <+: b.flatten

/-- A freshly seeded chunk begins with the overlap words of the chunk it
was seeded from. -/
lemma overlapSeeded_seed (ov : Nat) (c : List (List String)) (s : List String) :
    overlapSeeded ov c
      ((if (getOverlapWords c ov).isEmpty then [] else [getOverlapWords c ov])
        ++ [s]) := by
  unfold overlapSeeded
  by_cases he : getOverlapWords c ov = []
  · simp [he]
  · simp only [List.isEmpty_iff, he, if_neg, ite_false, List.cons_append,
      List.nil_append, List.flatten_cons, List.flatten_nil, List.append_nil]
    exact List.prefix_append _ _

/-- Appending a sentence at the end of the current chunk preserves its
leading overlap words. -/
lemma overlapSeeded_extend (ov : Nat) (c cur : List (List String))
    (s : List String) (h : overlapSeeded ov c cur) :
    overlapSeeded ov c (cur ++ [s]) := by
  unfold overlapSeeded at h ⊢
  exact h.trans (by rw [List.flatten_append]; exact List.prefix_append _ _)

/-- Chain invariant of the grouping loop: saved chunks are pairwise
overlap-seeded, and the current chunk is overlap-seeded from the last
saved chunk. -/
lemma groupAux_chain (mn mx ov : Nat) :
    ∀ (l : List (List String)) (st : GroupState),
      List.Chain' (overlapSeeded ov) st.chunks →
      (∀ c, st.chunks.getLast? = some c → overlapSeeded ov c st.current) →
      List.Chain' (overlapSeeded ov) (groupAux mn mx ov l st).chunks ∧
        ∀ c, (groupAux mn mx ov l st).chunks.getLast? = some c →
          overlapSeeded ov c (groupAux mn mx ov l st).current := by
  intro l
  induction l with
  | nil => intro st h1 h2; exact ⟨h1, h2⟩
  | cons s rest ih =>
    intro st h1 h2
    rw [groupAux]
    by_cases hb : st.currentWords + s.length > mx ∧ mn ≤ st.currentWords
    · rw [if_pos hb]
      refine ih _ ?_ ?_
      · rw [List.chain'_append]
        refine ⟨h1, List.chain'_singleton _, ?_⟩
        intro x hx y hy
        simp only [List.head?_cons, Option.mem_def, Option.some.injEq] at hy
        subst hy
        exact h2 x (Option.mem_def.mp hx)
      · intro c hc
        rw [List.getLast?_concat] at hc
        cases hc
        exact overlapSeeded_seed ov st.current s
    · rw [if_neg hb]
      refine ih _ h1 ?_
      intro c hc
      exact overlapSeeded_extend ov c st.current s (h2 c hc)

/-! ### Claim theorems for the Chunker -/

/-- **C1** counterexample: the claim "the output chunk sequence is empty if
and only if the input sentence list is empty" is false on the code: a
single one-word sentence with `min_words = 100` is a nonempty input whose
chunk output is empty, because the trailing partial chunk has fewer than
`min_words // 2` words and is dropped (chunker.py 166). -/
theorem chunker_empty_iff_counterexample :
    groupSentences [["hi"]] 100 300 30 = [] ∧
      ([["hi"]] : List (List String)) ≠ [] := by
  exact ⟨rfl, by simp⟩

/-- **C1** (amended): every parent chunk produced by
`ChunkerStage._group_sentences` has `word_count ≥ min_words // 2`, and the
output is empty iff the input sentence list is empty **or** its total word
count is below `min_words // 2` (the trailing partial chunk is kept exactly
when it has at least `min_words // 2` words). -/
theorem chunker_chunk_word_bounds (mn mx ov : Nat)
    (sentences : List (List String)) :
    (∀ c ∈ groupSentences sentences mn mx ov, mn / 2 ≤ c.flatten.length) ∧
    (groupSentences sentences mn mx ov = [] ↔
      sentences = [] ∨ wordsSum sentences < mn / 2) := by
  have hinv := groupAux_inv mn mx ov sentences ⟨[], [], 0⟩ (by simp) (by simp)
  set st := groupAux mn mx ov sentences ⟨[], [], 0⟩ with hst
  constructor
  · intro c hc
    rw [groupSentences, ← hst] at hc
    by_cases hcond : st.current ≠ [] ∧ mn / 2 ≤ st.currentWords
    · rw [if_pos hcond] at hc
      rcases List.mem_append.mp hc with hmem | hmem
      · exact le_trans (Nat.div_le_self mn 2) (hinv.2 c hmem)
      · rcases List.mem_singleton.mp hmem with rfl
        rw [← hinv.1]; exact hcond.2
    · rw [if_neg hcond] at hc
      exact le_trans (Nat.div_le_self mn 2) (hinv.2 c hc)
  · constructor
    · intro hres
      rw [groupSentences, ← hst] at hres
      by_cases hcond : st.current ≠ [] ∧ mn / 2 ≤ st.currentWords
      · rw [if_pos hcond] at hres
        exact absurd hres (by simp)
      · rw [if_neg hcond] at hres
        obtain ⟨-, h2, h3⟩ :=
          groupAux_chunks_nil mn mx ov sentences ⟨[], [], 0⟩ hres
        have h2' : st.current = sentences := by simpa [hst] using h2
        have h3' : st.currentWords = wordsSum sentences := by
          simpa [hst] using h3
        rcases not_and_or.mp hcond with h | h
        · left; rw [← h2']; exact not_not.mp h
        · right; rw [← h3']; omega
    · intro h
      rcases h with rfl | h
      · simp [groupSentences, groupAux]
      · obtain ⟨h1, h2, h3⟩ :=
          groupAux_below_min mn mx ov sentences ⟨[], [], 0⟩
            (by have := Nat.div_le_self mn 2; simp only []; omega)
        have h1' : st.chunks = [] := by simpa [hst] using h1
        have h3' : st.currentWords = wordsSum sentences := by
          simpa [hst] using h3
        rw [groupSentences, ← hst, if_neg (by rw [h3']; omega)]
        exact h1'

/-- Witness for **C1**: the amended statement evaluated on a concrete
input. -/
theorem chunker_chunk_word_bounds_witness :
    (∀ c ∈ groupSentences [["a", "b"], ["c"]] 2 3 1, 2 / 2 ≤ c.flatten.length) ∧
    (groupSentences [["a", "b"], ["c"]] 2 3 1 = [] ↔
      ([["a", "b"], ["c"]] : List (List String)) = [] ∨
        wordsSum [["a", "b"], ["c"]] < 2 / 2) :=
  chunker_chunk_word_bounds 2 3 1 [["a", "b"], ["c"]]

/-- **C3**: consecutive parent chunks are linked by the overlap relation —
the leading words of each chunk after the first are exactly the overlap
suffix `_get_overlap` computes from the previous chunk — and the overlap
suffix never exceeds `overlap_words` words. -/
theorem chunker_overlap_invariant (mn mx ov : Nat)
    (sentences : List (List String)) :
    List.Chain' (overlapSeeded ov) (groupSentences sentences mn mx ov) ∧
    ∀ chunk : List (List String), (getOverlapWords chunk ov).length ≤ ov := by
  refine ⟨?_, fun chunk => getOverlapWords_length_le chunk ov⟩
  obtain ⟨hch, hlast⟩ :=
    groupAux_chain mn mx ov sentences ⟨[], [], 0⟩ (by simp) (by simp)
  rw [groupSentences]
  set st := groupAux mn mx ov sentences ⟨[], [], 0⟩ with hst
  by_cases hcond : st.current ≠ [] ∧ mn / 2 ≤ st.currentWords
  · rw [if_pos hcond]
    rw [List.chain'_append]
    refine ⟨hch, List.chain'_singleton _, ?_⟩
    intro x hx y hy
    simp only [List.head?_cons, Option.mem_def, Option.some.injEq] at hy
    subst hy
    exact hlast x (Option.mem_def.mp hx)
  · rw [if_neg hcond]; exact hch

/-- Witness for **C3**: the overlap chain evaluated on a concrete input. -/
theorem chunker_overlap_invariant_witness :
    List.Chain' (overlapSeeded 1) (groupSentences [["a", "b"], ["c"], ["d"]] 2 3 1) ∧
    ∀ chunk : List (List String), (getOverlapWords chunk 1).length ≤ 1 :=
  chunker_overlap_invariant 2 3 1 [["a", "b"], ["c"], ["d"]]

/-! ## OCR decision engine — `app/crawling/stages/ocr_decision.py`

`OCRDecisionStage._decide_ocr_action` maps the extracted-text statistics
`(word_count, total_images, text_bearing_images)` to an action together
with a reason; the reason string's fixed part is modelled as a reason
category. Python float thresholds are modelled as `ℚ`. -/

/-- The three OCR actions (`OCRAction` enum of the document model, as used
throughout ocr_decision.py). -/
inductive OCRAction where
  | skip_ocr
  | ocr_images_only
  | full_page_ocr
deriving DecidableEq

/-- One category per `return` site of `_decide_ocr_action`
(ocr_decision.py 114-161). -/
inductive OCRReasonCat where
  | scanned_pattern
  | no_text
  | text_ok_images
  | text_sufficient
  | short_doc_images
  | short_doc_no_images
  | very_low_text_images
  | sparse_text_only
deriving DecidableEq

/-- The thresholds read from the OCR configuration (ocr_decision.py 95-98).
`min_text_bearing_fraction` is the Python `min_text_bearing_ratio`
threshold. -/
structure OcrConfig where
  min_text_bearing_images : Nat
  min_text_bearing_fraction : ℚ
  min_word_count_sufficient : Nat
  scanned_pdf_max_words : Nat

/-- Embeds `text_bearing_ratio` (ocr_decision.py 101): the fraction of
images that are text-bearing, `0` when there are no images. -/
def textBearingFrac (total_images text_bearing_images : Nat) : ℚ :=
  if 0 < total_images then (text_bearing_images : ℚ) / (total_images : ℚ)
  else 0

/-- Embeds `significant_text_images` (ocr_decision.py 102-105). -/
def significantTextImages (cfg : OcrConfig) (total_images text_bearing_images : Nat) : Prop :=
  cfg.min_text_bearing_images ≤ text_bearing_images ∨
    (0 < total_images ∧
      cfg.min_text_bearing_fraction ≤ textBearingFrac total_images text_bearing_images)

instance (cfg : OcrConfig) (ti tb : Nat) :
    Decidable (significantTextImages cfg ti tb) :=
  inferInstanceAs (Decidable (_ ∨ _ ∧ _ ≤ _))

/-- Embeds `OCRDecisionStage._decide_ocr_action` (ocr_decision.py 107-161)
as a function of the page statistics. -/
def decideOcrAction (cfg : OcrConfig) (wc ti tb : Nat) : OCRAction × OCRReasonCat :=
  if wc < cfg.scanned_pdf_max_words ∧ 0 < ti ∧ 0 < tb then
    (.full_page_ocr, .scanned_pattern)
  else if wc = 0 then
    (.full_page_ocr, .no_text)
  else if cfg.min_word_count_sufficient ≤ wc then
    if significantTextImages cfg ti tb then (.ocr_images_only, .text_ok_images)
    else (.skip_ocr, .text_sufficient)
  else if 30 ≤ wc then
    if significantTextImages cfg ti tb then (.ocr_images_only, .short_doc_images)
    else (.skip_ocr, .short_doc_no_images)
  else if 0 < ti then
    (.full_page_ocr, .very_low_text_images)
  else
    (.skip_ocr, .sparse_text_only)

/-- The spec's "significant" test, written from the spec's words: count at
least the count threshold OR fraction at least the fraction threshold. -/
def specSignificant (cfg : OcrConfig) (ti tb : Nat) : Prop :=
  cfg.min_text_bearing_images ≤ tb ∨
    cfg.min_text_bearing_fraction ≤ textBearingFrac ti tb

instance (cfg : OcrConfig) (ti tb : Nat) : Decidable (specSignificant cfg ti tb) :=
  inferInstanceAs (Decidable (_ ∨ _ ≤ _))

/-- The spec's priority-ordered rule table (spec §4.4 / claim C2), written
from the spec's words; first match wins:
1. `wc < scanned_max ∧ images > 0 ∧ text_bearing > 0` → full page;
2. `wc = 0` → full page;
3. `wc ≥ min_words_sufficient` → images-only / skip by significance;
4. `30 ≤ wc < min_words_sufficient` → the same split;
5. `wc < 30` → full page if any images, else skip. -/
def specOcrRuleTable (cfg : OcrConfig) (wc ti tb : Nat) : OCRAction :=
  if wc < cfg.scanned_pdf_max_words ∧ 0 < ti ∧ 0 < tb then .full_page_ocr
  else if wc = 0 then .full_page_ocr
  else if cfg.min_word_count_sufficient ≤ wc then
    (if specSignificant cfg ti tb then .ocr_images_only else .skip_ocr)
  else if 30 ≤ wc ∧ wc < cfg.min_word_count_sufficient then
    (if specSignificant cfg ti tb then .ocr_images_only else .skip_ocr)
  else if wc < 30 then
    (if 0 < ti then .full_page_ocr else .skip_ocr)
  else .skip_ocr

/-- For a positive fraction threshold, the code's significance test and
the spec's coincide (they can only differ when there are no images, where
the fraction is `0 < min_text_bearing_fraction`). -/
lemma significant_iff_spec (cfg : OcrConfig) (ti tb : Nat)
    (hfrac : 0 < cfg.min_text_bearing_fraction) :
    significantTextImages cfg ti tb ↔ specSignificant cfg ti tb := by
  unfold significantTextImages specSignificant
  constructor
  · rintro (h | ⟨_, h⟩)
    · exact Or.inl h
    · exact Or.inr h
  · rintro (h | h)
    · exact Or.inl h
    · by_cases hti : 0 < ti
      · exact Or.inr ⟨hti, h⟩
      · exfalso
        rw [textBearingFrac, if_neg hti] at h
        exact absurd (lt_of_lt_of_le hfrac h) (lt_irrefl 0)

/-- **C2**: `_decide_ocr_action` is a pure total function of
`(word_count, image_count, text_bearing_image_count)` — determinism is
immediate — and, whenever the fraction threshold is positive, its action
is exactly the one given by the spec's priority-ordered rule table. -/
theorem ocr_decision_matches_rule_table (cfg : OcrConfig) (wc ti tb : Nat)
    (hfrac : 0 < cfg.min_text_bearing_fraction) :
    (decideOcrAction cfg wc ti tb).1 = specOcrRuleTable cfg wc ti tb ∧
    ∀ wc' ti' tb', wc' = wc → ti' = ti → tb' = tb →
      decideOcrAction cfg wc' ti' tb' = decideOcrAction cfg wc ti tb := by
  refine ⟨?_, by intro _ _ _ h1 h2 h3; rw [h1, h2, h3]⟩
  have hsig := significant_iff_spec cfg ti tb hfrac
  unfold decideOcrAction specOcrRuleTable
  split_ifs <;> simp_all

/-- Witness for **C2** at concrete statistics and the default thresholds
(3 text-bearing images, fraction 1/2, 100 sufficient words, 50 scanned
max words). -/
theorem ocr_decision_matches_rule_table_witness :
    (decideOcrAction ⟨3, 1/2, 100, 50⟩ 40 2 1).1 = specOcrRuleTable ⟨3, 1/2, 100, 50⟩ 40 2 1 ∧
    ∀ wc' ti' tb', wc' = 40 → ti' = 2 → tb' = 1 →
      decideOcrAction ⟨3, 1/2, 100, 50⟩ wc' ti' tb' = decideOcrAction ⟨3, 1/2, 100, 50⟩ 40 2 1 :=
  ocr_decision_matches_rule_table ⟨3, 1/2, 100, 50⟩ 40 2 1 (by norm_num)

/-! ## OCR decision error fallback — `OCRDecisionStage.process` -/

/-- A crawled page as far as the OCR decision stage touches it
(`app/crawling/models/document.py` is not under src/; the fields are the
ones read and written in ocr_decision.py 54-65). -/
structure Page where
  url : String
  depth : Nat
  ocr_action : Option OCRAction
  ocr_reason : Option String
deriving DecidableEq

/-- Embeds the per-page try/except body of `OCRDecisionStage.process`
(ocr_decision.py 55-65): on a successful decision the action and reason
are stored; on an exception the page gets the conservative
`FULL_PAGE_OCR` with the exception message recorded. -/
def applyOcrDecision (p : Page) (res : Except String (OCRAction × String)) : Page :=
  match res with
  | .ok (a, r) => { p with ocr_action := some a, ocr_reason := some r }
  | .error e =>
      { p with ocr_action := some .full_page_ocr,
               ocr_reason := some ("Decision failed: " ++ e) }

/-- Embeds the `for page in document.pages` loop of
`OCRDecisionStage.process`, with the fallible decision abstracted as `d`. -/
def ocrDecisionProcess (d : Page → Except String (OCRAction × String))
    (pages : List Page) : List Page :=
  pages.map (fun p => applyOcrDecision p (d p))

/-- **C9**: if deciding page `i` raises, that page comes out of the stage
with `ocr_action = full_page` and the exception message recorded in
`ocr_reason`; in particular the action is never `skip` and the exception
is not swallowed without setting action and reason. -/
theorem ocr_decision_error_fallback
    (d : Page → Except String (OCRAction × String)) (pages : List Page)
    (i : Nat) (p : Page) (e : String)
    (hp : pages[i]? = some p) (he : d p = .error e) :
    (ocrDecisionProcess d pages)[i]? =
      some { p with ocr_action := some .full_page_ocr,
                    ocr_reason := some ("Decision failed: " ++ e) } ∧
    ∀ q : Page, (ocrDecisionProcess d pages)[i]? = some q →
      q.ocr_action ≠ some .skip_ocr := by
  have h1 : (ocrDecisionProcess d pages)[i]? =
      some { p with ocr_action := some .full_page_ocr,
                    ocr_reason := some ("Decision failed: " ++ e) } := by
    simp [ocrDecisionProcess, List.getElem?_map, hp, he, applyOcrDecision]
  refine ⟨h1, ?_⟩
  intro q hq
  rw [h1] at hq
  cases hq
  simp

/-- Witness for **C9**: a one-page document whose decision throws. -/
theorem ocr_decision_error_fallback_witness :
    (ocrDecisionProcess (fun _ => .error "boom") [⟨"u", 0, none, none⟩])[0]? =
      some { (⟨"u", 0, none, none⟩ : Page) with
               ocr_action := some .full_page_ocr,
               ocr_reason := some ("Decision failed: " ++ "boom") } ∧
    ∀ q : Page,
      (ocrDecisionProcess (fun _ => .error "boom") [⟨"u", 0, none, none⟩])[0]? = some q →
      q.ocr_action ≠ some .skip_ocr :=
  ocr_decision_error_fallback (fun _ => .error "boom") [⟨"u", 0, none, none⟩]
    0 ⟨"u", 0, none, none⟩ "boom" rfl rfl

/-! ## RateLimiter — `app/crawling/utils/rate_limiter.py`

Python `float` delays are modelled as `ℚ`.  The `last_request_time`
field and the `wait`/`wait_sync` methods belong to the wall-clock path and
are not part of the backoff state the claim is about. -/

structure RateLimiter where
  base_delay : ℚ
  max_delay : ℚ
  backoff_factor : ℚ
  current_delay : ℚ
  consecutive_failures : Nat
deriving DecidableEq

/-- Embeds `RateLimiter.__init__` (rate_limiter.py 33-52). -/
def RateLimiter.init (base mx factor : ℚ) : RateLimiter :=
  ⟨base, mx, factor, base, 0⟩

/-- Embeds `RateLimiter.success` (rate_limiter.py 81-88). -/
def RateLimiter.success (rl : RateLimiter) : RateLimiter :=
  { rl with consecutive_failures := 0, current_delay := rl.base_delay }

/-- Embeds `RateLimiter.failure` (rate_limiter.py 90-100): the failure
count is incremented first, then the delay is recomputed from it. -/
def RateLimiter.failure (rl : RateLimiter) : RateLimiter :=
  { rl with
      consecutive_failures := rl.consecutive_failures + 1,
      current_delay :=
        min (rl.base_delay * rl.backoff_factor ^ (rl.consecutive_failures + 1))
          rl.max_delay }

/-- `k` consecutive `failure()` calls with no intervening `success()`. -/
def applyFailures (rl : RateLimiter) : Nat → RateLimiter
  | 0 => rl
  | k + 1 => (applyFailures rl k).failure

lemma applyFailures_fields (rl : RateLimiter) :
    ∀ k : Nat,
      (applyFailures rl k).base_delay = rl.base_delay ∧
      (applyFailures rl k).max_delay = rl.max_delay ∧
      (applyFailures rl k).backoff_factor = rl.backoff_factor ∧
      (applyFailures rl k).consecutive_failures = rl.consecutive_failures + k := by
  intro k
  induction k with
  | zero => simp [applyFailures]
  | succ k ih =>
    obtain ⟨h1, h2, h3, h4⟩ := ih
    refine ⟨?_, ?_, ?_, ?_⟩ <;>
      simp [applyFailures, RateLimiter.failure, h1, h2, h3, h4]
    omega

/-- **C4**: starting from a limiter with no recorded failures, after `k ≥ 1`
consecutive `failure()` calls `current_delay` is
`min(base_delay * backoff_factor ^ k, max_delay)` and
`consecutive_failures` is `k`; one `success()` call then resets the delay
to `base_delay` and the failure count to `0`, regardless of `k`. -/
theorem rate_limiter_backoff (rl : RateLimiter) (k : Nat)
    (h0 : rl.consecutive_failures = 0) (hk : 1 ≤ k) :
    (applyFailures rl k).current_delay
        = min (rl.base_delay * rl.backoff_factor ^ k) rl.max_delay ∧
    (applyFailures rl k).consecutive_failures = k ∧
    ((applyFailures rl k).success).current_delay = rl.base_delay ∧
    ((applyFailures rl k).success).consecutive_failures = 0 := by
  obtain ⟨hb, hm, hf, hc⟩ := applyFailures_fields rl k
  refine ⟨?_, by omega, ?_, rfl⟩
  · cases k with
    | zero => omega
    | succ j =>
      obtain ⟨hb', hm', hf', hc'⟩ := applyFailures_fields rl j
      show ((applyFailures rl j).failure).current_delay = _
      rw [RateLimiter.failure]
      simp only [hb', hm', hf', hc', h0]
      norm_num
  · rw [RateLimiter.success]
    simpa using hb

/-- Witness for **C4**: two failures from a fresh limiter with base delay 1,
max delay 30, backoff factor 2. -/
theorem rate_limiter_backoff_witness :
    (applyFailures ⟨1, 30, 2, 1, 0⟩ 2).current_delay = min ((1 : ℚ) * 2 ^ 2) 30 ∧
    (applyFailures ⟨1, 30, 2, 1, 0⟩ 2).consecutive_failures = 2 ∧
    ((applyFailures ⟨1, 30, 2, 1, 0⟩ 2).success).current_delay = 1 ∧
    ((applyFailures ⟨1, 30, 2, 1, 0⟩ 2).success).consecutive_failures = 0 :=
  rate_limiter_backoff ⟨1, 30, 2, 1, 0⟩ 2 rfl (by norm_num)

/-! ## ContentFilter — `app/crawling/utils/content_filter.py`

The dedup state `_seen_hashes` is modelled as a list of hashes; the Python
method mutates the filter in place, so the embedding returns the verdict
together with the updated filter. -/

structure ContentFilter where
  skip_404 : Bool
  skip_login_pages : Bool
  skip_duplicates : Bool
  seen_hashes : List String
deriving DecidableEq

/-- Embeds `ContentFilter.is_duplicate_content`
(content_filter.py 101-118). -/
def ContentFilter.isDuplicateContent (cf : ContentFilter) (h : String) :
    Bool × ContentFilter :=
  if !cf.skip_duplicates then (false, cf)
  else if h ∈ cf.seen_hashes then (true, cf)
  else (false, { cf with seen_hashes := h :: cf.seen_hashes })

/-- Embeds `ContentFilter.reset` (content_filter.py 135-137). -/
def ContentFilter.reset (cf : ContentFilter) : ContentFilter :=
  { cf with seen_hashes := [] }

/-- Embeds `ContentFilter.is_error_page` (content_filter.py 120-133); like
`should_skip_url`, it reads but never writes the filter state. -/
def ContentFilter.isErrorPage (cf : ContentFilter) (status_code : Int) : Bool :=
  if !cf.skip_404 then false else decide (400 ≤ status_code)

/-- **C7** counterexample: the claim quantifies over *every* ContentFilter,
but for a filter constructed with `skip_duplicates = False` the second
call also returns `False` (content_filter.py 111-112 returns early without
inserting), so the two calls do not return `(false, true)`. -/
theorem content_filter_counterexample :
    ((((⟨true, true, false, []⟩ : ContentFilter).isDuplicateContent "h").2).isDuplicateContent
        "h").1 = false := by
  rfl

/-- **C7** (amended): for a filter with deduplication enabled and a hash
not yet seen, two successive `is_duplicate_content(h)` calls return
`false` then `true`; after `reset()` the first call on any hash (in
particular a previously seen one) returns `false` again; and
`is_duplicate_content` never removes a hash from the seen set — the state
is cleared only by `reset` (while `should_skip_url` and `is_error_page`
never write it). -/
theorem content_filter_dedup (cf : ContentFilter) (h : String)
    (hsd : cf.skip_duplicates = true) (hns : h ∉ cf.seen_hashes) :
    (cf.isDuplicateContent h).1 = false ∧
    (((cf.isDuplicateContent h).2).isDuplicateContent h).1 = true ∧
    (∀ (cf2 : ContentFilter) (h2 : String),
        ((cf2.reset).isDuplicateContent h2).1 = false) ∧
    (∀ (cf2 : ContentFilter) (h2 x : String),
        x ∈ cf2.seen_hashes → x ∈ ((cf2.isDuplicateContent h2).2).seen_hashes) := by
  refine ⟨?_, ?_, ?_, ?_⟩
  · simp [ContentFilter.isDuplicateContent, hsd, hns]
  · simp [ContentFilter.isDuplicateContent, hsd, hns]
  · intro cf2 h2
    rw [ContentFilter.isDuplicateContent]
    by_cases hd : cf2.skip_duplicates <;> simp [ContentFilter.reset, hd]
  · intro cf2 h2 x hx
    rw [ContentFilter.isDuplicateContent]
    split_ifs with h1 h2' <;> simp [hx]

/-- Witness for **C7**: a fresh default filter and an unseen hash. -/
theorem content_filter_dedup_witness :
    ((⟨true, true, true, []⟩ : ContentFilter).isDuplicateContent "h").1 = false ∧
    ((((⟨true, true, true, []⟩ : ContentFilter).isDuplicateContent "h").2).isDuplicateContent
        "h").1 = true ∧
    (∀ (cf2 : ContentFilter) (h2 : String),
        ((cf2.reset).isDuplicateContent h2).1 = false) ∧
    (∀ (cf2 : ContentFilter) (h2 x : String),
        x ∈ cf2.seen_hashes → x ∈ ((cf2.isDuplicateContent h2).2).seen_hashes) :=
  content_filter_dedup ⟨true, true, true, []⟩ "h" rfl (by simp)

/-! ## Crawler worker retry routing — `app/orchestrator/workers/crawler.py`

`CrawlerWorker.process_task` (crawler.py 132-150) routes a failed task:
dead-letter when the retry budget is exhausted, otherwise mark failed and
re-enqueue.  The task envelope itself lives in
`app/orchestrator/models/task.py`, which is not under src/. -/

/-- Modelled from the spec: the `CrawlTask` envelope
(`app/orchestrator/models/task.py` is not under src/) — spec §3: task
envelopes hold a retry count, max retries and a failure reason. -/
structure CrawlTask where
  retry_count : Nat
  max_retries : Nat
  failure_reason : Option String
deriving DecidableEq

/-- Modelled from the spec: `CrawlTask.mark_failed`
(`app/orchestrator/models/task.py` is not under src/) — spec §4.6: on a
retryable failure "the task is re-enqueued with `retry_count += 1` and a
failure reason attached". -/
def CrawlTask.markFailed (t : CrawlTask) (e : String) : CrawlTask :=
  { t with retry_count := t.retry_count + 1, failure_reason := some e }

/-- Where a failed task is routed: back onto its work queue, or to the
dead-letter sink with a terminal reason. -/
inductive FailureRoute where
  | requeued (t : CrawlTask)
  | dead_lettered (t : CrawlTask) (reason : String)
deriving DecidableEq

/-- Embeds the `except` branch of `CrawlerWorker.process_task`
(crawler.py 132-150): dead-letter when `retry_count >= max_retries`,
otherwise `mark_failed` and re-enqueue. -/
def handleCrawlFailure (task : CrawlTask) (e : String) : FailureRoute :=
  if task.max_retries ≤ task.retry_count then
    .dead_lettered task ("Max retries exceeded: " ++ e)
  else
    .requeued (task.markFailed e)

/-- **C5**: a failing task whose `retry_count` has reached `max_retries`
is routed to the dead-letter sink (unchanged, with the terminal reason)
and is never re-enqueued; while `retry_count < max_retries` a failure
re-enqueues the task with `retry_count` incremented and the failure reason
attached. -/
theorem crawler_retry_routing (task : CrawlTask) (e : String) :
    (task.max_retries ≤ task.retry_count →
      handleCrawlFailure task e
          = .dead_lettered task ("Max retries exceeded: " ++ e) ∧
        ∀ t : CrawlTask, handleCrawlFailure task e ≠ .requeued t) ∧
    (task.retry_count < task.max_retries →
      handleCrawlFailure task e
        = .requeued ⟨task.retry_count + 1, task.max_retries, some e⟩) := by
  constructor
  · intro hge
    rw [handleCrawlFailure, if_pos hge]
    exact ⟨rfl, by intro t h; cases h⟩
  · intro hlt
    rw [handleCrawlFailure, if_neg (by omega)]
    rfl

/-- Witness for **C5**: a task with exhausted retries is dead-lettered. -/
theorem crawler_retry_routing_witness :
    handleCrawlFailure ⟨2, 2, none⟩ "boom"
      = .dead_lettered ⟨2, 2, none⟩ ("Max retries exceeded: " ++ "boom") :=
  ((crawler_retry_routing ⟨2, 2, none⟩ "boom").1 (by decide)).1

/-! ## Orchestrator configuration — `app/orchestrator/config.py`

`OrchestratorConfig.__post_init__` (config.py 124-136) validates the OCR
pool and queue sizes; construction raising is modelled as `Except`. -/

structure WorkerConfig where
  crawler_workers : Int
  processor_workers : Int
  storage_workers : Int
  pdf_workers : Int
  ocr_workers : Int
deriving DecidableEq

structure QueueConfig where
  crawl_queue_size : Int
  processing_queue_size : Int
  pdf_queue_size : Int
  ocr_queue_size : Int
  storage_queue_size : Int
deriving DecidableEq

structure ResourceLimits where
  max_cpu_percent : ℚ
  max_gpu_memory_mb : Int
  max_ram_mb : Int
  max_requests_per_second : ℚ
  max_concurrent_requests : Int
deriving DecidableEq

structure RecoveryConfig where
  enable_recovery : Bool
  check_interval : ℚ
  max_task_retries : Int
  crawler_timeout : ℚ
  processor_timeout : ℚ
  pdf_timeout : ℚ
  ocr_timeout : ℚ
  storage_timeout : ℚ
deriving DecidableEq

structure OrchestratorConfig where
  workers : WorkerConfig
  queues : QueueConfig
  limits : ResourceLimits
  recovery : RecoveryConfig
  enable_monitoring : Bool
  monitoring_interval_seconds : ℚ
  shutdown_timeout_seconds : ℚ
  save_progress_interval_seconds : ℚ
deriving DecidableEq

/-- Embeds constructing an `OrchestratorConfig` including
`__post_init__` validation (config.py 105-136): a `ValueError` is an
`Except.error`. -/
def mkOrchestratorConfig (w : WorkerConfig) (q : QueueConfig)
    (l : ResourceLimits) (r : RecoveryConfig) (em : Bool)
    (mi sts spis : ℚ) : Except String OrchestratorConfig :=
  if 2 < w.ocr_workers then
    .error "ocr_workers should not exceed 2 to prevent GPU overload."
  else if 20 < q.ocr_queue_size then
    .error "ocr_queue_size should not exceed 20 to prevent memory issues."
  else
    .ok ⟨w, q, l, r, em, mi, sts, spis⟩

/-- **C6**: constructing an `OrchestratorConfig` fails exactly when the OCR
worker pool exceeds its safety ceiling (`ocr_workers > 2`) or the OCR
queue exceeds its safety ceiling (`ocr_queue_size > 20`); otherwise the
constructor returns the configuration unchanged. -/
theorem orchestrator_config_validation (w : WorkerConfig) (q : QueueConfig)
    (l : ResourceLimits) (r : RecoveryConfig) (em : Bool) (mi sts spis : ℚ) :
    ((∃ e, mkOrchestratorConfig w q l r em mi sts spis = .error e) ↔
      2 < w.ocr_workers ∨ 20 < q.ocr_queue_size) ∧
    (w.ocr_workers ≤ 2 → q.ocr_queue_size ≤ 20 →
      mkOrchestratorConfig w q l r em mi sts spis
        = .ok ⟨w, q, l, r, em, mi, sts, spis⟩) := by
  constructor
  · constructor
    · rintro ⟨e, he⟩
      by_contra hno
      push_neg at hno
      rw [mkOrchestratorConfig, if_neg (by omega), if_neg (by omega)] at he
      cases he
    · rintro (hw | hq)
      · exact ⟨_, by rw [mkOrchestratorConfig, if_pos hw]⟩
      · by_cases hw : 2 < w.ocr_workers
        · exact ⟨_, by rw [mkOrchestratorConfig, if_pos hw]⟩
        · exact ⟨_, by rw [mkOrchestratorConfig, if_neg hw, if_pos hq]⟩
  · intro hw hq
    rw [mkOrchestratorConfig, if_neg (by omega), if_neg (by omega)]

/-- Witness for **C6**: the default configuration (config.py 170-208,
`get_default_config`) passes validation. -/
theorem orchestrator_config_validation_witness :
    mkOrchestratorConfig ⟨3, 4, 2, 1, 0⟩ ⟨10, 50, 10, 10, 100⟩
        ⟨80, 8192, 16384, 10, 5⟩ ⟨true, 15, 2, 300, 180, 240, 300, 120⟩
        true 5 30 10
      = .ok ⟨⟨3, 4, 2, 1, 0⟩, ⟨10, 50, 10, 10, 100⟩, ⟨80, 8192, 16384, 10, 5⟩,
          ⟨true, 15, 2, 300, 180, 240, 300, 120⟩, true, 5, 30, 10⟩ :=
  (orchestrator_config_validation ⟨3, 4, 2, 1, 0⟩ ⟨10, 50, 10, 10, 100⟩
      ⟨80, 8192, 16384, 10, 5⟩ ⟨true, 15, 2, 300, 180, 240, 300, 120⟩
      true 5 30 10).2 (by decide) (by decide)

/-! ## Pipeline — `app/crawling/pipeline.py` and
`app/crawling/stages/base.py`

`WebScrapingPipeline.run` builds an initial empty `Document` and folds the
registered stages over it (pipeline.py 74-120); each stage execution is
`PipelineStage.run` = setup; process; teardown, re-raising any exception
(base.py 101-132).  Exceptions are modelled as `Except.error`. -/

/-- Modelled from the spec: the `Document` aggregate
(`app/crawling/models/document.py` is not under src/) — spec §3: start
target, output location, crawl-depth/page limits, the ordered pages, and
aggregate counters. -/
structure Document where
  start_url : String
  output_dir : String
  crawl_depth : Nat
  max_pages : Nat
  pages : List Page
  pages_scraped : Nat
  pages_failed : Nat
  pages_skipped : Nat
deriving DecidableEq

/-- The initial empty `Document` constructed by `WebScrapingPipeline.run`
(pipeline.py 90-95). -/
def initialDocument (start_url output_dir : String)
    (crawl_depth max_pages : Nat) : Document :=
  ⟨start_url, output_dir, crawl_depth, max_pages, [], 0, 0, 0⟩

/-- A pipeline stage as `WebScrapingPipeline.run` sees it: fallible
`setup`/`teardown` hooks around a fallible `process` transform
(base.py 85-132). -/
structure Stage (E : Type) where
  setup : Except E Unit
  process : Document → Except E Document
  teardown : Except E Unit

/-- Embeds `PipelineStage.run` (base.py 101-132): setup, process,
teardown in order; the first exception propagates. -/
def stageRun {E : Type} (s : Stage E) (d : Document) : Except E Document :=
  match s.setup with
  | .error e => .error e
  | .ok _ =>
    match s.process d with
    | .error e => .error e
    | .ok d2 =>
      match s.teardown with
      | .error e => .error e
      | .ok _ => .ok d2

/-- Embeds the `for stage in self.stages` loop of
`WebScrapingPipeline.run` (pipeline.py 98-108): stages run in registration
order; an exception in a stage aborts the run and propagates. -/
def runStages {E : Type} : List (Stage E) → Document → Except E Document
  | [], d => .ok d
  | s :: rest, d =>
    match stageRun s d with
    | .ok d2 => runStages rest d2
    | .error e => .error e

/-- Embeds `WebScrapingPipeline.run` (pipeline.py 74-120): construct the
initial empty document, then run the stages over it. -/
def pipelineRun {E : Type} (stages : List (Stage E))
    (start_url output_dir : String) (crawl_depth max_pages : Nat) :
    Except E Document :=
  runStages stages (initialDocument start_url output_dir crawl_depth max_pages)

/-- **C8**: `run` starts from the initial empty document and applies the
registered stages in registration order, each exactly once — with no
stages the initial document is returned; a successful head stage hands its
output to the remaining stages; a failing stage makes the whole run return
that stage's error, whatever the later stages are (so none of them is
executed and there is no partial silent continuation). -/
theorem pipeline_run_short_circuit {E : Type} (s : Stage E)
    (rest : List (Stage E)) (d d' : Document) (e : E) :
    (∀ start_url output_dir crawl_depth max_pages,
      pipelineRun (s :: rest) start_url output_dir crawl_depth max_pages
        = runStages (s :: rest)
            (initialDocument start_url output_dir crawl_depth max_pages)) ∧
    runStages ([] : List (Stage E)) d = .ok d ∧
    (stageRun s d = .ok d' → runStages (s :: rest) d = runStages rest d') ∧
    (stageRun s d = .error e → runStages (s :: rest) d = .error e) := by
  refine ⟨fun _ _ _ _ => rfl, rfl, ?_, ?_⟩
  · intro h; rw [runStages, h]
  · intro h; rw [runStages, h]

/-- Witness for **C8**: a two-description run — an identity stage followed
by nothing — evaluated at a concrete document, plus the error
short-circuit at a failing stage. -/
theorem pipeline_run_short_circuit_witness :
    (∀ start_url output_dir crawl_depth max_pages,
      pipelineRun [(⟨.ok (), fun d => .ok d, .ok ()⟩ : Stage String)]
          start_url output_dir crawl_depth max_pages
        = runStages [(⟨.ok (), fun d => .ok d, .ok ()⟩ : Stage String)]
            (initialDocument start_url output_dir crawl_depth max_pages)) ∧
    runStages ([] : List (Stage String)) (initialDocument "u" "o" 1 2)
      = .ok (initialDocument "u" "o" 1 2) ∧
    (stageRun (⟨.ok (), fun d => .ok d, .ok ()⟩ : Stage String)
        (initialDocument "u" "o" 1 2) = .ok (initialDocument "u" "o" 1 2) →
      runStages [(⟨.ok (), fun d => .ok d, .ok ()⟩ : Stage String)]
          (initialDocument "u" "o" 1 2)
        = runStages [] (initialDocument "u" "o" 1 2)) ∧
    (stageRun (⟨.ok (), fun d => .ok d, .ok ()⟩ : Stage String)
        (initialDocument "u" "o" 1 2) = .error "err" →
      runStages [(⟨.ok (), fun d => .ok d, .ok ()⟩ : Stage String)]
          (initialDocument "u" "o" 1 2)
        = .error "err") :=
  pipeline_run_short_circuit (⟨.ok (), fun d => .ok d, .ok ()⟩ : Stage String)
    [] (initialDocument "u" "o" 1 2) (initialDocument "u" "o" 1 2) "err"

/-! ## MongoDB serialization — `app/schemas/document.py`

`CrawledDocument.to_mongo_dict` (document.py 61-83) renames the dumped
dictionary's keys via `dict.pop`, which raises `KeyError` for a missing
key.  The dictionary is modelled as an association list; a raised
`KeyError` for key `k` is `Except.error k`. -/

/-- A MongoDB-storable value (the payloads are irrelevant to the claim;
only the keys are compared). -/
inductive MValue where
  | str (s : String)
  | int (n : Int)
  | boolean (b : Bool)
  | null
  | dt (t : String)
deriving DecidableEq

/-- The document's processing status (`DocumentStatus` enum,
document.py 12-18). -/
inductive DocumentStatus where
  | pending
  | processing
  | vectorized
  | failed
  | stored
deriving DecidableEq

/-- `use_enum_values` dumps the status as its string value. -/
def statusValue : DocumentStatus → MValue
  | .pending => .str "pending"
  | .processing => .str "processing"
  | .vectorized => .str "vectorized"
  | .failed => .str "failed"
  | .stored => .str "stored"

/-- The `CrawledDocument` pydantic model (document.py 21-56); datetimes
are modelled as strings. -/
structure CrawledDocument where
  file_id : String
  original_file : String
  source_url : String
  file_path : String
  status : DocumentStatus
  vector_count : Int
  error_message : Option String
  file_size : Int
  page_count : Int
  mime_type : String
  crawl_session_id : String
  crawl_depth : Int
  is_deleted : Bool
  is_vectorized : String
  created_at : String
  updated_at : String
  created_by : String
  updated_by : String
deriving DecidableEq

/-- A Python dict with string keys, as an association list in insertion
order. -/
def MDict : Type := List (String × MValue)

/-- `d.pop(k)`: the value at `k` and the dict without it, or a `KeyError`
carrying the missing key. -/
def dictPop : List (String × MValue) → String → Except String (MValue × List (String × MValue))
  | [], k => .error k
  | (k', v) :: rest, k =>
    if k' = k then .ok (v, rest)
    else
      match dictPop rest k with
      | .error e => .error e
      | .ok (v2, d2) => .ok (v2, (k', v) :: d2)

/-- `d[k] = v`: replace the value at `k`, or append the pair. -/
def dictSet : List (String × MValue) → String → MValue → List (String × MValue)
  | [], k, v => [(k, v)]
  | (k', v') :: rest, k, v =>
    if k' = k then (k, v) :: rest else (k', v') :: dictSet rest k v

/-- One `data[new] = data.pop(old)` line of `to_mongo_dict`. -/
def popAssign (d : List (String × MValue)) (newKey oldKey : String) :
    Except String (List (String × MValue)) :=
  match dictPop d oldKey with
  | .error e => .error e
  | .ok (v, d2) => .ok (dictSet d2 newKey v)

/-- Embeds `self.model_dump()` (document.py 63): one entry per model
field, in declaration order. -/
def modelDump (doc : CrawledDocument) : List (String × MValue) :=
  [("file_id", .str doc.file_id),
   ("original_file", .str doc.original_file),
   ("source_url", .str doc.source_url),
   ("file_path", .str doc.file_path),
   ("status", statusValue doc.status),
   ("vector_count", .int doc.vector_count),
   ("error_message",
     match doc.error_message with
     | none => .null
     | some s => .str s),
   ("file_size", .int doc.file_size),
   ("page_count", .int doc.page_count),
   ("mime_type", .str doc.mime_type),
   ("crawl_session_id", .str doc.crawl_session_id),
   ("crawl_depth", .int doc.crawl_depth),
   ("is_deleted", .boolean doc.is_deleted),
   ("is_vectorized", .str doc.is_vectorized),
   ("created_at", .dt doc.created_at),
   ("updated_at", .dt doc.updated_at),
   ("created_by", .str doc.created_by),
   ("updated_by", .str doc.updated_by)]

/-- Embeds `CrawledDocument.to_mongo_dict` (document.py 61-83), line by
line — including the duplicated
`data["crawlSessionId"] = data.pop("crawl_session_id")` on lines 74-75. -/
def toMongoDict (doc : CrawledDocument) : Except String (List (String × MValue)) := do
  let d := modelDump doc
  let d ← popAssign d "fileId" "file_id"
  let d ← popAssign d "originalFile" "original_file"
  let d ← popAssign d "sourceUrl" "source_url"
  let d ← popAssign d "filePath" "file_path"
  let d ← popAssign d "vectorCount" "vector_count"
  let d ← popAssign d "errorMessage" "error_message"
  let d ← popAssign d "fileSize" "file_size"
  let d ← popAssign d "pageCount" "page_count"
  let d ← popAssign d "mimeType" "mime_type"
  let d ← popAssign d "crawlSessionId" "crawl_session_id"
  let d ← popAssign d "crawlSessionId" "crawl_session_id"
  let d ← popAssign d "crawlDepth" "crawl_depth"
  let d ← popAssign d "isDeleted" "is_deleted"
  let d ← popAssign d "isVectorized" "is_vectorized"
  let d ← popAssign d "createdAt" "created_at"
  let d ← popAssign d "updatedAt" "updated_at"
  let d ← popAssign d "createdBy" "created_by"
  let d ← popAssign d "updatedBy" "updated_by"
  return d

/-- **C10**: for every `CrawledDocument`, `to_mongo_dict` raises
`KeyError('crawl_session_id')`: the first pop on line 74 removes the key,
so the duplicated pop on line 75 always fails — the method never returns
a dictionary and the `to_mongo_dict`/`from_mongo_dict` round trip is
impossible. -/
theorem to_mongo_dict_always_raises (doc : CrawledDocument) :
    toMongoDict doc = .error "crawl_session_id" := by
  rfl

end WebCrawl
